import Mathlib

/-
  Shallow embedding of the TrainDesk backend (src/server.js, three successive
  revisions concatenated in that file, plus src/unnamed/part_000..004).

  Documents of the Mongo-style collections are modelled as Lean structures
  mirroring the mongoose schemas; the database is a record of lists (one list
  per collection, in insertion order, matching the default mongoose findOne
  and find ordering without an explicit sort). Route handlers are pure
  functions from a database state and the request data to a response and the
  next database state. External collaborators (certificate generation) are
  passed in as function parameters, and handlers report how many times they
  invoke them.
-/

namespace TrainDesk

/-- User document: firebaseUid, email, role. The first revision schema
(server.js:124-129) takes role in admin and staff with default staff; the
third revision schema (server.js:927-932) takes role in user and admin with
default user. The enums are kept as plain strings. -/
structure UserRec where
  firebaseUid : String
  email : String
  role : String
deriving DecidableEq

/-- Employee document, EmployeeSchema of the third revision
(server.js:934-951): ownerId, firebaseUid (unique), name, email, dept,
completedTrainings (refs to TrainingVideo), pendingSOPs, completedBy
(pairs of employee id and completion time). Enum role and status fields are
kept as strings. -/
structure EmployeeRec where
  id : Nat
  ownerId : String
  firebaseUid : String
  name : String
  email : String
  dept : String
  role : String
  status : String
  completedTrainings : List Nat
  pendingSOPs : Nat
  completedBy : List (Nat × Nat)
deriving DecidableEq

/-- SOP document, SOPSchema of the third revision (server.js:953-962):
ownerId, title, dept, content, updated, assignedTo (refs to Employee). -/
structure SOPRec where
  id : Nat
  ownerId : String
  title : String
  dept : String
  content : String
  updated : Nat
  assignedTo : List Nat
deriving DecidableEq

/-- TrainingVideo document, TrainingVideoSchema (server.js:964-974). -/
structure TrainingRec where
  id : Nat
  ownerId : String
  title : String
  description : String
  videoUrl : String
  thumbnailUrl : String
  assignedEmployees : List String
  status : String
  completedBy : List String
  createdAt : Nat
deriving DecidableEq

/-- EmployeeSOPProgress document, EmployeeSOPProgressSchema
(server.js:1020-1026): employeeId (a firebaseUid string), sopId, completed,
completedAt, certificateUrl. The schema declares no ownerId path. -/
structure ProgressRec where
  employeeId : String
  sopId : Nat
  completed : Bool
  completedAt : Option Nat
  certificateUrl : Option String
deriving DecidableEq

/-- Database state: one list per collection, in insertion order. -/
structure DB where
  users : List UserRec
  employees : List EmployeeRec
  sops : List SOPRec
  trainings : List TrainingRec
  progresses : List ProgressRec
deriving DecidableEq

/-- Replace the first element satisfying p by f of it (mongoose
findOneAndUpdate, or save of a fetched document, on a collection whose
matching key is unique). -/
def updateFirst (p : α → Bool) (f : α → α) : List α → List α
  | [] => []
  | x :: xs => if p x then f x :: xs else x :: updateFirst p f xs

/-- Resolved caller attached to the request by the auth middleware of the
third revision: either an Employee document (isEmployee true) or a User
document (isEmployee false). -/
inductive Caller where
  | employee (e : EmployeeRec)
  | user (u : UserRec)
deriving DecidableEq

def Caller.firebaseUid : Caller → String
  | .employee e => e.firebaseUid
  | .user u => u.firebaseUid

def Caller.isEmployee : Caller → Bool
  | .employee _ => true
  | .user _ => false

/-- Auth middleware of the third revision (server.js:1235-1268), after the
token has been verified to the pair (uid, email): first try to match an
Employee by firebaseUid; otherwise match a User by firebaseUid, creating one
when absent with no explicit role, so the rev-3 UserSchema default role user
(server.js:927-932, enum user and admin, default user) applies. -/
def authenticate (db : DB) (uid email : String) : Caller × DB :=
  match db.employees.find? (fun e => e.firebaseUid == uid) with
  | some emp => (Caller.employee emp, db)
  | none =>
    match db.users.find? (fun u => u.firebaseUid == uid) with
    | some user => (Caller.user user, db)
    | none =>
      let user : UserRec := { firebaseUid := uid, email := email, role := "user" }
      (Caller.user user, { db with users := db.users ++ [user] })

/-- Auth middleware of the first revision (server.js:177-200), after token
verification: look up the User by firebaseUid, creating one with the schema
default role staff when absent; the caller is always a User here. -/
def authenticateRev1 (db : DB) (uid email : String) : UserRec × DB :=
  match db.users.find? (fun u => u.firebaseUid == uid) with
  | some user => (user, db)
  | none =>
    let user : UserRec := { firebaseUid := uid, email := email, role := "staff" }
    (user, { db with users := db.users ++ [user] })

/-- POST /api/users/register-admin of the first revision (server.js:272-283):
findOneAndUpdate on firebaseUid setting role admin, returning the new
document; without upsert, a missing User yields null and no change. -/
def registerAdmin (db : DB) (uid : String) : Option UserRec × DB :=
  match db.users.find? (fun u => u.firebaseUid == uid) with
  | none => (none, db)
  | some u =>
    let u' : UserRec := { u with role := "admin" }
    (some u',
     { db with users := updateFirst (fun v => v.firebaseUid == uid) (fun _ => u') db.users })

/-- Request body of the SOP update routes: each field may be present or
absent in the JSON body; ownerId covers a client that supplies one. -/
structure SopBody where
  title : Option String
  dept : Option String
  content : Option String
  assignedTo : Option (List Nat)
  ownerId : Option String
deriving DecidableEq

/-- Javascript truthiness of an optional string: undefined and the empty
string are falsy. -/
def truthyStr : Option String → Bool
  | none => false
  | some s => !(s == "")

/-- Response carrying a status code, an optional SOP payload, and the next
database state. -/
structure SopRes where
  status : Nat
  sop : Option SOPRec
  db : DB
deriving DecidableEq

/-- PUT /api/sops/:id of the second revision (server.js:675-686): findById,
404 on absence or ownership mismatch, then findByIdAndUpdate with the spread
request body plus a fresh updated stamp; every field present in the body is
written, fields absent from the body are left untouched. -/
def putApiSopsIdRev2 (db : DB) (uid : String) (body : SopBody) (now : Nat) (id : Nat) : SopRes :=
  match db.sops.find? (fun s => s.id == id) with
  | none => { status := 404, sop := none, db := db }
  | some sop =>
    if sop.ownerId == uid then
      let sop' : SOPRec :=
        { sop with
          title := body.title.getD sop.title
          dept := body.dept.getD sop.dept
          content := body.content.getD sop.content
          assignedTo := body.assignedTo.getD sop.assignedTo
          ownerId := body.ownerId.getD sop.ownerId
          updated := now }
      { status := 200, sop := some sop'
        db := { db with sops := updateFirst (fun s => s.id == id) (fun _ => sop') db.sops } }
    else { status := 404, sop := none, db := db }

/-- PUT /api/sops/:id of the third revision (server.js:1380-1403): findById
with 404 only on absence — the handler never consults the caller identity and
performs no ownership check. Each of title, dept, content is written only
when truthy (present and non-empty); assignedTo is written when present (an
array is always truthy); the updated stamp is refreshed; the document is
saved. The uid parameter is the authenticated caller, unused by the source. -/
def putApiSopsId (db : DB) (uid : String) (body : SopBody) (now : Nat) (id : Nat) : SopRes :=
  match db.sops.find? (fun s => s.id == id) with
  | none => { status := 404, sop := none, db := db }
  | some sop =>
    let s1 := if truthyStr body.title then { sop with title := body.title.getD "" } else sop
    let s2 := if truthyStr body.dept then { s1 with dept := body.dept.getD "" } else s1
    let s3 := if truthyStr body.content then { s2 with content := body.content.getD "" } else s2
    let s4 := match body.assignedTo with
              | some a => { s3 with assignedTo := a }
              | none => s3
    let sop' := { s4 with updated := now }
    { status := 200, sop := some sop'
      db := { db with sops := updateFirst (fun s => s.id == id) (fun _ => sop') db.sops } }

/-- GET /api/sops/:id of the third revision (server.js:1410-1427): findOne on
the pair of the document id and the caller ownerId, 404 when no such
document exists (absence and ownership mismatch are the same response). The
populate of assignedTo only reshapes the payload and is not modelled. -/
def getApiSopsId (db : DB) (uid : String) (id : Nat) : SopRes :=
  match db.sops.find? (fun s => s.id == id && s.ownerId == uid) with
  | none => { status := 404, sop := none, db := db }
  | some sop => { status := 200, sop := some sop, db := db }

/-- Response carrying a status code and the next database state. -/
structure DeleteRes where
  status : Nat
  db : DB
deriving DecidableEq

/-- DELETE /api/sops/:id of the third revision (server.js:1784-1796):
findOneAndDelete on the pair of the document id and the caller ownerId, 404
when nothing matched. -/
def deleteApiSopsId (db : DB) (uid : String) (id : Nat) : DeleteRes :=
  match db.sops.find? (fun s => s.id == id && s.ownerId == uid) with
  | none => { status := 404, db := db }
  | some _ =>
    { status := 200
      db := { db with sops := db.sops.eraseP (fun s => s.id == id && s.ownerId == uid) } }

/-- DELETE /api/training/:id of the third revision (server.js:1493-1511):
findOneAndDelete on the pair of the document id and the caller ownerId, 404
when nothing matched. -/
def deleteApiTrainingId (db : DB) (uid : String) (id : Nat) : DeleteRes :=
  match db.trainings.find? (fun t => t.id == id && t.ownerId == uid) with
  | none => { status := 404, db := db }
  | some _ =>
    { status := 200
      db := { db with trainings := db.trainings.eraseP (fun t => t.id == id && t.ownerId == uid) } }

/-- DELETE /api/employees/:id of the third revision (server.js:2024-2047):
findOneAndDelete on the pair of the document id and the caller ownerId, 404
when nothing matched. -/
def deleteApiEmployeesId (db : DB) (uid : String) (id : Nat) : DeleteRes :=
  match db.employees.find? (fun e => e.id == id && e.ownerId == uid) with
  | none => { status := 404, db := db }
  | some _ =>
    { status := 200
      db := { db with employees := db.employees.eraseP (fun e => e.id == id && e.ownerId == uid) } }

/-- Response carrying a status code, an optional TrainingVideo payload, and
the next database state. -/
structure TrainingRes where
  status : Nat
  training : Option TrainingRec
  db : DB
deriving DecidableEq

/-- GET /api/training/:id of the third revision (server.js:1648-1662):
findOne on the pair of the document id and the caller ownerId, 404 when no
such document exists. -/
def getApiTrainingId (db : DB) (uid : String) (id : Nat) : TrainingRes :=
  match db.trainings.find? (fun t => t.id == id && t.ownerId == uid) with
  | none => { status := 404, training := none, db := db }
  | some t => { status := 200, training := some t, db := db }

/-- POST /api/training/:id/complete of the third revision
(server.js:1516-1567): resolve the Employee by the caller firebaseUid (404
when absent), findById the training (404 when absent), 403 when the training
ownerId differs from the employee ownerId, 403 when assignedEmployees is
non-empty and does not contain the employee. Then push the employee uid to
completedBy unless already present; set status to completed when
assignedEmployees is empty, or when every assigned uid is now in completedBy;
save the training; push the training id to the employee completedTrainings
unless already present and save the employee. -/
def postApiTrainingIdComplete (db : DB) (uid : String) (id : Nat) : TrainingRes :=
  match db.employees.find? (fun e => e.firebaseUid == uid) with
  | none => { status := 404, training := none, db := db }
  | some emp =>
    match db.trainings.find? (fun t => t.id == id) with
    | none => { status := 404, training := none, db := db }
    | some training =>
      if training.ownerId != emp.ownerId then { status := 403, training := none, db := db }
      else if training.assignedEmployees.length > 0 &&
              !(training.assignedEmployees.contains emp.firebaseUid) then
        { status := 403, training := none, db := db }
      else
        let cb := if training.completedBy.contains emp.firebaseUid then training.completedBy
                  else training.completedBy ++ [emp.firebaseUid]
        let st := if training.assignedEmployees.length == 0 then "completed"
                  else if training.assignedEmployees.all (fun u => cb.contains u) then "completed"
                  else training.status
        let training' := { training with completedBy := cb, status := st }
        let emp' := if emp.completedTrainings.contains training.id then emp
                    else { emp with completedTrainings := emp.completedTrainings ++ [training.id] }
        { status := 200, training := some training'
          db := { db with
                  trainings := updateFirst (fun t => t.id == id) (fun _ => training') db.trainings
                  employees := updateFirst (fun e => e.firebaseUid == uid) (fun _ => emp') db.employees } }

/-- Per-employee SOP progress counters, getEmployeeSopStats
(server.js:1036-1048): countDocuments on employeeId, and on employeeId plus
completed true. The derived percentage display field (floating point
rounding) is not modelled. -/
def getEmployeeSopStats (db : DB) (uid : String) : Nat × Nat :=
  ((db.progresses.filter (fun p => p.employeeId == uid)).length,
   (db.progresses.filter (fun p => p.employeeId == uid && p.completed)).length)

/-- Response of the SOP completion routes: status code, optional progress
payload, number of invocations of the external certificate generator during
the request, and the next database state. -/
structure CompleteRes where
  status : Nat
  progress : Option ProgressRec
  certCalls : Nat
  db : DB
deriving DecidableEq

/-- POST /api/employee/sops/:id/complete, first registration
(server.js:1898-1951); the later registration of the same path at
server.js:1985-2019 is shadowed, express dispatches the first match.
Requires an employee caller (403 otherwise), findById the SOP (404 when
absent; no ownership or assignment check here), find the progress document
for the pair of the caller uid and the SOP id, creating it with completed
false when absent. When the progress is already completed, return it as is
without invoking the certificate generator. Otherwise invoke the generator
on the caller name and the SOP title, set completed, completedAt and
certificateUrl, and save. -/
def postApiEmployeeSopsIdComplete (db : DB) (genCert : String → String → String)
    (now : Nat) (caller : Caller) (id : Nat) : CompleteRes :=
  match caller with
  | Caller.user _ => { status := 403, progress := none, certCalls := 0, db := db }
  | Caller.employee emp =>
    let empUid := emp.firebaseUid
    match db.sops.find? (fun s => s.id == id) with
    | none => { status := 404, progress := none, certCalls := 0, db := db }
    | some sop =>
      match db.progresses.find? (fun p => p.employeeId == empUid && p.sopId == id) with
      | some progress =>
        if progress.completed then
          { status := 200, progress := some progress, certCalls := 0, db := db }
        else
          let progress' : ProgressRec :=
            { progress with
              completed := true
              completedAt := some now
              certificateUrl := some (genCert emp.name sop.title) }
          { status := 200, progress := some progress', certCalls := 1
            db := { db with progresses :=
                      (updateFirst (fun p => p.employeeId == empUid && p.sopId == id)
                        (fun _ => progress') db.progresses) } }
      | none =>
        let created : ProgressRec :=
          { employeeId := empUid, sopId := id, completed := false
            completedAt := none, certificateUrl := none }
        let progress' : ProgressRec :=
          { created with
            completed := true
            completedAt := some now
            certificateUrl := some (genCert emp.name sop.title) }
        { status := 200, progress := some progress', certCalls := 1
          db := { db with progresses := db.progresses ++ [progress'] } }

/-- POST /api/sops/:id/complete of the third revision (server.js:2053-2131):
resolve the Employee by the caller firebaseUid (404 when absent), findById
the SOP (404 when absent), 403 when the SOP ownerId differs from the
employee ownerId. When a progress document for the pair exists and is
already completed, return it without invoking the certificate generator and
without touching the database. Otherwise create the progress document when
absent, mark it completed with a fresh certificateUrl from the generator,
save it, then push to the employee completedBy, decrement a positive
pendingSOPs counter, and save the employee. -/
def postApiSopsIdComplete (db : DB) (genCert : String → String → String)
    (now : Nat) (uid : String) (id : Nat) : CompleteRes :=
  match db.employees.find? (fun e => e.firebaseUid == uid) with
  | none => { status := 404, progress := none, certCalls := 0, db := db }
  | some emp =>
    match db.sops.find? (fun s => s.id == id) with
    | none => { status := 404, progress := none, certCalls := 0, db := db }
    | some sop =>
      if sop.ownerId != emp.ownerId then
        { status := 403, progress := none, certCalls := 0, db := db }
      else
        let emp' : EmployeeRec :=
          { emp with
            completedBy := emp.completedBy ++ [(emp.id, now)]
            pendingSOPs := if emp.pendingSOPs > 0 then emp.pendingSOPs - 1 else emp.pendingSOPs }
        match db.progresses.find? (fun p => p.employeeId == uid && p.sopId == id) with
        | some progress =>
          if progress.completed then
            { status := 200, progress := some progress, certCalls := 0, db := db }
          else
            let progress' : ProgressRec :=
              { progress with
                completed := true
                completedAt := some now
                certificateUrl := some (genCert emp.name sop.title) }
            { status := 200, progress := some progress', certCalls := 1
              db := { db with
                      progresses := (updateFirst (fun p => p.employeeId == uid && p.sopId == id)
                        (fun _ => progress') db.progresses)
                      employees := (updateFirst (fun e => e.firebaseUid == uid)
                        (fun _ => emp') db.employees) } }
        | none =>
          let progress' : ProgressRec :=
            { employeeId := uid, sopId := id, completed := true
              completedAt := some now
              certificateUrl := some (genCert emp.name sop.title) }
          { status := 200, progress := some progress', certCalls := 1
            db := { db with
                    progresses := db.progresses ++ [progress']
                    employees := (updateFirst (fun e => e.firebaseUid == uid)
                      (fun _ => emp') db.employees) } }

/-- Payload of GET /api/stats of the third revision. -/
structure StatsRes where
  employees : Nat
  activeTrainings : Nat
  completedTrainings : Nat
  completedSOPs : Nat
  pendingSOPs : Nat
deriving DecidableEq

/-- Stored ownerId field of an EmployeeSOPProgress document: the schema
(server.js:1020-1026) declares no ownerId path and no write ever sets one,
so no stored document carries the field. A Mongo filter on ownerId therefore
matches no progress document. -/
def ProgressRec.storedOwnerId (_ : ProgressRec) : Option String :=
  none

/-- GET /api/stats of the third revision (server.js:1804-1846): counts of
the caller Employees, of the caller TrainingVideos by status, the caller SOP
total, the countDocuments with filter of ownerId and completed true on the
EmployeeSOPProgress collection (whose documents store no ownerId, see
ProgressRec.storedOwnerId), and pendingSOPs as the SOP total minus that
count, clamped at zero. -/
def getApiStats (db : DB) (uid : String) : StatsRes :=
  let employees := (db.employees.filter (fun e => e.ownerId == uid)).length
  let activeTrainings :=
    (db.trainings.filter (fun t => t.ownerId == uid && t.status == "active")).length
  let completedTrainings :=
    (db.trainings.filter (fun t => t.ownerId == uid && t.status == "completed")).length
  let totalSops := (db.sops.filter (fun s => s.ownerId == uid)).length
  let completedSOPs :=
    (db.progresses.filter (fun p => p.storedOwnerId == some uid && p.completed)).length
  let pendingSOPs := if (totalSops : Int) - (completedSOPs : Int) < 0 then 0
                     else totalSops - completedSOPs
  { employees := employees
    activeTrainings := activeTrainings
    completedTrainings := completedTrainings
    completedSOPs := completedSOPs
    pendingSOPs := pendingSOPs }

/-- Tenant-scoped pending count as the specification words it (spec section
4.5 and the stats claim): the SOP count of the caller tenant minus the count
of completed EmployeeSOPProgress records of the caller tenant (those whose
SOP is owned by the caller), clamped at zero. Stated for comparison with
getApiStats. -/
def specTenantPendingSOPs (db : DB) (uid : String) : Nat :=
  let totalSops := (db.sops.filter (fun s => s.ownerId == uid)).length
  let completedOfTenant :=
    (db.progresses.filter (fun p =>
      p.completed && (db.sops.any (fun s => s.id == p.sopId && s.ownerId == uid)))).length
  totalSops - completedOfTenant

/-- GET /api/admin/sops/completed-count (server.js:1889-1892): the route
stack is authenticate then the handler, with no requireAdmin and no role
branch; the handler counts EmployeeSOPProgress documents with completed true
and no ownerId or employeeId filter. The caller parameter is the resolved
authenticated identity, unused by the handler. -/
def getApiAdminSopsCompletedCount (db : DB) (caller : Caller) : Nat × Nat :=
  (200, (db.progresses.filter (fun p => p.completed)).length)

/-- Request body of the SOP create route: title, dept, content, assignedTo,
and an ownerId field covering a client that supplies one. -/
structure CreateSopBody where
  title : Option String
  dept : Option String
  content : Option String
  assignedTo : Option (List Nat)
  ownerId : Option String
deriving DecidableEq

/-- POST /api/sops, first registration (server.js:1349-1373); the later
registration of the same path at server.js:1775-1782 is shadowed, express
dispatches the first match. Destructures title, dept, content, assignedTo
from the body (any body ownerId is ignored), 400 when any of the three text
fields is falsy, then creates the SOP with ownerId stamped from the caller
firebaseUid and assignedTo defaulted to the empty list. -/
def postApiSops (db : DB) (uid : String) (body : CreateSopBody)
    (now nextId : Nat) : SopRes :=
  if !(truthyStr body.title) || !(truthyStr body.dept) || !(truthyStr body.content) then
    { status := 400, sop := none, db := db }
  else
    let sop : SOPRec :=
      { id := nextId
        ownerId := uid
        title := body.title.getD ""
        dept := body.dept.getD ""
        content := body.content.getD ""
        updated := now
        assignedTo := body.assignedTo.getD [] }
    { status := 200, sop := some sop, db := { db with sops := db.sops ++ [sop] } }

/-- POST /api/sops, second (shadowed) registration (server.js:1775-1782):
spreads the request body after the ownerId stamp, so a body ownerId would
override the stamp; unreachable at runtime because the first registration
handles every request to the path. Included for reference only. -/
def postApiSopsShadowed (db : DB) (uid : String) (body : CreateSopBody)
    (now nextId : Nat) : SopRes :=
  let sop : SOPRec :=
    { id := nextId
      ownerId := (body.ownerId).getD uid
      title := body.title.getD ""
      dept := body.dept.getD ""
      content := body.content.getD ""
      updated := now
      assignedTo := body.assignedTo.getD [] }
  { status := 200, sop := some sop, db := { db with sops := db.sops ++ [sop] } }

/-- Request body of the Employee create route. -/
structure CreateEmployeeBody where
  name : Option String
  email : Option String
  dept : Option String
  ownerId : Option String
deriving DecidableEq

/-- Response carrying a status code, an optional Employee payload, and the
next database state. -/
structure EmployeeRes where
  status : Nat
  emp : Option EmployeeRec
  db : DB
deriving DecidableEq

/-- POST /api/employees of the third revision (server.js:1728-1770),
modelling the initialized firebase-admin path: destructures name, email,
dept from the body (any body ownerId is ignored), 400 on a falsy one, looks
up or creates the firebase account for the email (abstracted as the
resolveUid parameter), then creates the Employee with ownerId stamped from
the caller firebaseUid and the schema defaults for role, status and the
counters. -/
def postApiEmployees (db : DB) (uid : String) (body : CreateEmployeeBody)
    (resolveUid : String → String) (nextId : Nat) : EmployeeRes :=
  if !(truthyStr body.name) || !(truthyStr body.email) || !(truthyStr body.dept) then
    { status := 400, emp := none, db := db }
  else
    let emp : EmployeeRec :=
      { id := nextId
        ownerId := uid
        firebaseUid := resolveUid (body.email.getD "")
        name := body.name.getD ""
        email := body.email.getD ""
        dept := body.dept.getD ""
        role := "staff"
        status := "active"
        completedTrainings := []
        pendingSOPs := 0
        completedBy := [] }
    { status := 200, emp := some emp, db := { db with employees := db.employees ++ [emp] } }

/-- Request body of the TrainingVideo create route. -/
structure CreateTrainingBody where
  title : Option String
  description : Option String
  videoUrl : Option String
  thumbnailUrl : Option String
  assignedEmployees : Option (List String)
  ownerId : Option String
deriving DecidableEq

/-- Thumbnail fallback of the training create route (server.js:1470-1471):
derive a thumbnail from the video url by rewriting the upload path segment.
The javascript replace rewrites the first occurrence; String.replace here
rewrites every occurrence, which agrees on urls with a single upload
segment. -/
def soTransform (videoUrl : String) : String :=
  videoUrl.replace "/upload/" "/upload/so_1/"

/-- POST /api/training (server.js:1461-1491): destructures title,
description, videoUrl, thumbnailUrl, assignedEmployees from the body (any
body ownerId is ignored), 400 when title or videoUrl is falsy, derives the
thumbnail when falsy, then creates the TrainingVideo with ownerId stamped
from the caller firebaseUid, schema default status active and empty
completedBy. -/
def postApiTraining (db : DB) (uid : String) (body : CreateTrainingBody)
    (now nextId : Nat) : TrainingRes :=
  if !(truthyStr body.title) || !(truthyStr body.videoUrl) then
    { status := 400, training := none, db := db }
  else
    let finalThumbnail := if truthyStr body.thumbnailUrl then body.thumbnailUrl.getD ""
                          else soTransform (body.videoUrl.getD "")
    let training : TrainingRec :=
      { id := nextId
        ownerId := uid
        title := body.title.getD ""
        description := body.description.getD ""
        videoUrl := body.videoUrl.getD ""
        thumbnailUrl := finalThumbnail
        assignedEmployees := body.assignedEmployees.getD []
        status := "active"
        completedBy := []
        createdAt := now }
    { status := 200, training := some training
      db := { db with trainings := db.trainings ++ [training] } }

/-
  Sample documents and database states used by the concrete witnesses and
  counterexamples below. Tenants are the admin subject identifiers T1 and T2.
-/

/-- Employee of tenant T1 with subject e1. -/
def empA : EmployeeRec :=
  { id := 1, ownerId := "T1", firebaseUid := "e1", name := "Eve", email := "eve@x"
    dept := "ops", role := "staff", status := "active"
    completedTrainings := [], pendingSOPs := 1, completedBy := [] }

/-- Admin user of tenant T1. -/
def usrA : UserRec := { firebaseUid := "T1", email := "t1@x", role := "admin" }

/-- Staff user with subject u2. -/
def usrB : UserRec := { firebaseUid := "u2", email := "u2@x", role := "staff" }

/-- SOP owned by tenant T1. -/
def sopA : SOPRec :=
  { id := 1, ownerId := "T1", title := "Safety", dept := "ops"
    content := "orig", updated := 0, assignedTo := [1] }

/-- Second SOP owned by tenant T1. -/
def sopB : SOPRec :=
  { id := 2, ownerId := "T1", title := "Fire", dept := "ops"
    content := "steps", updated := 0, assignedTo := [] }

/-- Training of tenant T1 assigned to subjects e1 and e9. -/
def trA : TrainingRec :=
  { id := 1, ownerId := "T1", title := "Onboarding", description := ""
    videoUrl := "v", thumbnailUrl := "th"
    assignedEmployees := ["e1", "e9"], status := "active"
    completedBy := [], createdAt := 0 }

/-- Public training of tenant T1 with nobody assigned. -/
def trPub : TrainingRec :=
  { id := 2, ownerId := "T1", title := "Welcome", description := ""
    videoUrl := "v2", thumbnailUrl := "th2"
    assignedEmployees := [], status := "active"
    completedBy := [], createdAt := 0 }

/-- Completed progress of employee e1 on SOP 1, with a stored certificate. -/
def prgA : ProgressRec :=
  { employeeId := "e1", sopId := 1, completed := true
    completedAt := some 5, certificateUrl := some "cert1" }

/-- Completed progress of employee e2 of tenant T2 on SOP 9. -/
def prgB : ProgressRec :=
  { employeeId := "e2", sopId := 9, completed := true
    completedAt := some 6, certificateUrl := some "cert2" }

/-- Empty database. -/
def dbEmpty : DB :=
  { users := [], employees := [], sops := [], trainings := [], progresses := [] }

/-- Database for the assigned-training completion witness. -/
def dbC3a : DB := { dbEmpty with employees := [empA], trainings := [trA] }

/-- Database for the public-training completion witness. -/
def dbC3b : DB := { dbEmpty with employees := [empA], trainings := [trPub] }

/-
  Theorems. Shared helper lemmas come first; each claim then has exactly one
  theorem, with a witness or counterexample where called for.
-/

/-- Helper: searching an appended list when the first part has no match. -/
theorem find?_append_none (p : α → Bool) (l1 l2 : List α) (h : l1.find? p = none) :
    (l1 ++ l2).find? p = l2.find? p := by
  simp [List.find?_append, h]

/-- Helper: updateFirst rewrites exactly the first match, so a search finds
the rewritten element as long as it still satisfies the predicate. -/
theorem find?_updateFirst (p : α → Bool) (f : α → α) (l : List α) (u : α)
    (h : l.find? p = some u) (hf : p (f u) = true) :
    (updateFirst p f l).find? p = some (f u) := by
  induction l with
  | nil => simp at h
  | cons a l ih =>
    cases hpa : p a with
    | true =>
      simp [List.find?_cons, hpa] at h
      subst h
      simp [updateFirst, hpa, List.find?_cons, hf]
    | false =>
      simp [List.find?_cons, hpa] at h
      simp [updateFirst, hpa, List.find?_cons]
      exact ih h

/-- C6 counterexample — the claim fails on the role of a first-sight User:
the auth middleware with employee precedence (server.js:1235-1268) creates
the User with no explicit role, and the rev-3 UserSchema (server.js:927-932)
defaults role to user, not staff; authenticating a brand-new subject yields
a User whose role is user, and user differs from staff. (The staff default
exists only in the first revision, whose middleware has no Employee
precedence.) -/
theorem c6_counterexample :
    (authenticate dbEmpty "new" "n@x").1 =
      Caller.user { firebaseUid := "new", email := "n@x", role := "user" } ∧
    (authenticate dbEmpty "new" "n@x").2.users =
      [{ firebaseUid := "new", email := "n@x", role := "user" }] ∧
    ("user" : String) ≠ "staff" := by
  decide

/-- C6 (amended) — caller resolution precedence of the auth middleware
(server.js:1235-1268): an Employee match by subjectId takes precedence and
resolves the caller as that employee without touching the database; otherwise
a User match resolves the caller as that user; otherwise a User with the
rev-3 schema default role user (not staff, see the counterexample) is
created and returned; and a second authentication of the same subject
returns the same caller and leaves the database unchanged (no duplicate
creation, role still the created one). -/
theorem c6_caller_resolution (db : DB) (uid email : String) :
    (∀ e, db.employees.find? (fun x => x.firebaseUid == uid) = some e →
      authenticate db uid email = (Caller.employee e, db)) ∧
    (∀ u, db.employees.find? (fun x => x.firebaseUid == uid) = none →
      db.users.find? (fun x => x.firebaseUid == uid) = some u →
      authenticate db uid email = (Caller.user u, db)) ∧
    (db.employees.find? (fun x => x.firebaseUid == uid) = none →
      db.users.find? (fun x => x.firebaseUid == uid) = none →
      (authenticate db uid email).1 =
        Caller.user { firebaseUid := uid, email := email, role := "user" } ∧
      (authenticate db uid email).2.users =
        db.users ++ [{ firebaseUid := uid, email := email, role := "user" }]) ∧
    authenticate (authenticate db uid email).2 uid email = authenticate db uid email := by
  refine ⟨?_, ?_, ?_, ?_⟩
  · intro e h
    simp [authenticate, h]
  · intro u hE hU
    simp [authenticate, hE, hU]
  · intro hE hU
    simp [authenticate, hE, hU]
  · cases hE : db.employees.find? (fun x => x.firebaseUid == uid) with
    | some e => simp [authenticate, hE]
    | none =>
      cases hU : db.users.find? (fun x => x.firebaseUid == uid) with
      | some u => simp [authenticate, hE, hU]
      | none =>
        have h2 : (db.users ++
            [{ firebaseUid := uid, email := email, role := "user" : UserRec }]).find?
              (fun x => x.firebaseUid == uid) =
            some { firebaseUid := uid, email := email, role := "user" } := by
          rw [find?_append_none _ _ _ hU]
          simp [List.find?_cons]
        simp [authenticate, hE, hU, h2]

/-- C6 witness: the three resolution cases at concrete states — an Employee
match, a User match, and a fresh subject creating a User with the schema
default role user. -/
theorem c6_witness :
    authenticate { dbEmpty with employees := [empA], users := [usrB] } "e1" "eve@x" =
      (Caller.employee empA, { dbEmpty with employees := [empA], users := [usrB] }) ∧
    authenticate { dbEmpty with users := [usrB] } "u2" "m@x" =
      (Caller.user usrB, { dbEmpty with users := [usrB] }) ∧
    (authenticate dbEmpty "fresh" "f@x").1 =
      Caller.user { firebaseUid := "fresh", email := "f@x", role := "user" } ∧
    (authenticate dbEmpty "fresh" "f@x").2.users =
      dbEmpty.users ++ [{ firebaseUid := "fresh", email := "f@x", role := "user" }] :=
  ⟨(c6_caller_resolution _ "e1" "eve@x").1 empA (by decide),
   (c6_caller_resolution _ "u2" "m@x").2.1 usrB (by decide) (by decide),
   ((c6_caller_resolution dbEmpty "fresh" "f@x").2.2.1 (by decide) (by decide)).1,
   ((c6_caller_resolution dbEmpty "fresh" "f@x").2.2.1 (by decide) (by decide)).2⟩

/-- C9 — POST /api/users/register-admin (server.js:272-283) after the auth
middleware of the same revision (server.js:177-200): for every authenticated
caller the route finds the User record that authentication guarantees and
unconditionally sets its role to admin, returning the updated user; no
allow-list or other precondition is consulted. -/
theorem c9_register_admin_unconditional (db : DB) (uid email : String) :
    ∃ u', (registerAdmin (authenticateRev1 db uid email).2 uid).1 = some u' ∧
      u'.role = "admin" ∧ u'.firebaseUid = uid ∧
      (registerAdmin (authenticateRev1 db uid email).2 uid).2.users.find?
        (fun v => v.firebaseUid == uid) = some u' := by
  cases hU : db.users.find? (fun v => v.firebaseUid == uid) with
  | some u =>
    have huid : u.firebaseUid = uid := by
      have := List.find?_some hU
      simpa using this
    refine ⟨{ u with role := "admin" }, ?_, rfl, huid, ?_⟩
    · simp [authenticateRev1, hU, registerAdmin]
    · simp only [authenticateRev1, hU, registerAdmin]
      exact find?_updateFirst _ _ _ _ hU (by simp [huid])
  | none =>
    have h2 : (db.users ++
        [{ firebaseUid := uid, email := email, role := "staff" : UserRec }]).find?
          (fun v => v.firebaseUid == uid) =
        some { firebaseUid := uid, email := email, role := "staff" } := by
      rw [find?_append_none _ _ _ hU]
      simp [List.find?_cons]
    refine ⟨{ firebaseUid := uid, email := email, role := "admin" }, ?_, rfl, rfl, ?_⟩
    · simp [authenticateRev1, hU, registerAdmin, h2]
    · simp only [authenticateRev1, hU, registerAdmin, h2]
      exact find?_updateFirst _ _ _ _ h2 (by simp)

/-- C3 — TrainingVideo status transition on employee completion
(server.js:1516-1567): on a successful completion call, completedBy gains
the caller unless already present (set semantics, re-add is a no-op); with
assignedEmployees empty the status becomes completed on any (in particular
the first) completion; with assignedEmployees non-empty and the training
still active, the status becomes completed exactly when the updated
completedBy contains every assigned subject, and stays active otherwise. -/
theorem c3_training_status_transition (db : DB) (uid : String) (id : Nat)
    (emp : EmployeeRec) (tr : TrainingRec)
    (hemp : db.employees.find? (fun e => e.firebaseUid == uid) = some emp)
    (htr : db.trainings.find? (fun t => t.id == id) = some tr)
    (hown : tr.ownerId = emp.ownerId)
    (hassign : tr.assignedEmployees = [] ∨ tr.assignedEmployees.contains uid = true) :
    ∃ tr', (postApiTrainingIdComplete db uid id).status = 200 ∧
      (postApiTrainingIdComplete db uid id).training = some tr' ∧
      tr'.completedBy = (if tr.completedBy.contains uid then tr.completedBy
                         else tr.completedBy ++ [uid]) ∧
      (tr.assignedEmployees = [] → tr'.status = "completed") ∧
      (tr.assignedEmployees ≠ [] → tr.status = "active" →
        ((tr'.status = "completed" ↔
           ∀ u ∈ tr.assignedEmployees, tr'.completedBy.contains u = true) ∧
         (¬ (∀ u ∈ tr.assignedEmployees, tr'.completedBy.contains u = true) →
           tr'.status = "active"))) := by
  have hequid : emp.firebaseUid = uid := by simpa using List.find?_some hemp
  subst hequid
  have hne : (tr.ownerId != emp.ownerId) = false := by
    simp [bne, hown]
  have hch : (decide (tr.assignedEmployees.length > 0) &&
      !(tr.assignedEmployees.contains emp.firebaseUid)) = false := by
    rcases hassign with h | h
    · simp [h]
    · simp [h]
      intro _
      simpa using h
  refine ⟨{ tr with
            completedBy := if tr.completedBy.contains emp.firebaseUid then tr.completedBy
                           else tr.completedBy ++ [emp.firebaseUid]
            status := if tr.assignedEmployees.length == 0 then "completed"
                      else if tr.assignedEmployees.all (fun u =>
                        (if tr.completedBy.contains emp.firebaseUid then tr.completedBy
                         else tr.completedBy ++ [emp.firebaseUid]).contains u) then "completed"
                      else tr.status }, ?_, ?_, rfl, ?_, ?_⟩
  · simp only [postApiTrainingIdComplete, hemp, htr, hne, hch]
    simp
  · simp only [postApiTrainingIdComplete, hemp, htr, hne, hch]
    simp
  · intro hempty
    simp [hempty]
  · intro hne2 hact
    have hlen : (tr.assignedEmployees.length == 0) = false := by
      simp [List.length_eq_zero, hne2]
    by_cases hall : tr.assignedEmployees.all (fun u =>
        (if tr.completedBy.contains emp.firebaseUid then tr.completedBy
         else tr.completedBy ++ [emp.firebaseUid]).contains u) = true
    · constructor
      · simp only [hlen, hall]
        constructor
        · intro _
          exact fun u hu => (List.all_eq_true.mp hall) u hu
        · intro _
          simp
      · intro hnot
        exact absurd (fun u hu => (List.all_eq_true.mp hall) u hu) hnot
    · have hallf : tr.assignedEmployees.all (fun u =>
          (if tr.completedBy.contains emp.firebaseUid then tr.completedBy
           else tr.completedBy ++ [emp.firebaseUid]).contains u) = false := by
        simpa using hall
      constructor
      · simp only [hlen, hallf, if_neg, Bool.false_eq_true, if_false, hact]
        constructor
        · intro hcon
          exact absurd hcon (by decide)
        · intro hforall
          exact absurd (List.all_eq_true.mpr hforall) hall
      · intro _
        simp only [hlen, hallf, Bool.false_eq_true, if_false, hact]

/-- C3 witness: employee e1 completes the training assigned to e1 and e9
(the status must stay active since e9 has not completed), and completes the
public training with nobody assigned (the status must become completed on
this first completion). -/
theorem c3_witness :
    (∃ tr', (postApiTrainingIdComplete dbC3a "e1" 1).status = 200 ∧
      (postApiTrainingIdComplete dbC3a "e1" 1).training = some tr' ∧
      tr'.completedBy = (if trA.completedBy.contains "e1" then trA.completedBy
                         else trA.completedBy ++ ["e1"]) ∧
      (trA.assignedEmployees = [] → tr'.status = "completed") ∧
      (trA.assignedEmployees ≠ [] → trA.status = "active" →
        ((tr'.status = "completed" ↔
           ∀ u ∈ trA.assignedEmployees, tr'.completedBy.contains u = true) ∧
         (¬ (∀ u ∈ trA.assignedEmployees, tr'.completedBy.contains u = true) →
           tr'.status = "active")))) ∧
    (∃ tr', (postApiTrainingIdComplete dbC3b "e1" 2).status = 200 ∧
      (postApiTrainingIdComplete dbC3b "e1" 2).training = some tr' ∧
      tr'.completedBy = (if trPub.completedBy.contains "e1" then trPub.completedBy
                         else trPub.completedBy ++ ["e1"]) ∧
      (trPub.assignedEmployees = [] → tr'.status = "completed") ∧
      (trPub.assignedEmployees ≠ [] → trPub.status = "active" →
        ((tr'.status = "completed" ↔
           ∀ u ∈ trPub.assignedEmployees, tr'.completedBy.contains u = true) ∧
         (¬ (∀ u ∈ trPub.assignedEmployees, tr'.completedBy.contains u = true) →
           tr'.status = "active")))) :=
  ⟨c3_training_status_transition dbC3a "e1" 1 empA trA (by decide) (by decide) (by decide)
    (Or.inr (by decide)),
   c3_training_status_transition dbC3b "e1" 2 empA trPub (by decide) (by decide) (by decide)
    (Or.inl (by decide))⟩

/-- C1 counterexample — the claim fails on PUT /api/sops/:id of the third
revision (server.js:1380-1403): the handler performs no ownership check, so
a request authenticated as T2 (a tenant distinct from T1) modifies the SOP
owned by T1: the stored content changes from orig to hacked. -/
theorem c1_counterexample :
    sopA.ownerId = "T1" ∧ ("T2" : String) ≠ "T1" ∧ sopA.content = "orig" ∧
    (putApiSopsId { dbEmpty with sops := [sopA] } "T2"
      { title := none, dept := none, content := some "hacked"
        assignedTo := none, ownerId := none } 5 1).status = 200 ∧
    (putApiSopsId { dbEmpty with sops := [sopA] } "T2"
      { title := none, dept := none, content := some "hacked"
        assignedTo := none, ownerId := none } 5 1).db.sops =
      [{ sopA with content := "hacked", updated := 5 }] := by
  decide

/-- C1 (amended) — ownership isolation holds for the by-id read and delete
routes of the third revision: when the record with the requested id belongs
to another tenant, GET /api/sops/:id, DELETE /api/sops/:id,
GET /api/training/:id, DELETE /api/training/:id and DELETE /api/employees/:id
all answer 404 and leave the database unchanged; PUT /api/sops/:id is
excluded, as it modifies the record regardless of its owner (see the
counterexample). The uniqueness hypotheses mirror the unique Mongo id. -/
theorem c1_ownership_isolation_amended (db : DB) (uid : String) (id : Nat) :
    (∀ sop, db.sops.find? (fun s => s.id == id) = some sop → sop.ownerId ≠ uid →
      (∀ s ∈ db.sops, s.id = id → s = sop) →
      getApiSopsId db uid id = { status := 404, sop := none, db := db } ∧
      deleteApiSopsId db uid id = { status := 404, db := db }) ∧
    (∀ tr, db.trainings.find? (fun t => t.id == id) = some tr → tr.ownerId ≠ uid →
      (∀ t ∈ db.trainings, t.id = id → t = tr) →
      getApiTrainingId db uid id = { status := 404, training := none, db := db } ∧
      deleteApiTrainingId db uid id = { status := 404, db := db }) ∧
    (∀ emp, db.employees.find? (fun e => e.id == id) = some emp → emp.ownerId ≠ uid →
      (∀ e ∈ db.employees, e.id = id → e = emp) →
      deleteApiEmployeesId db uid id = { status := 404, db := db }) := by
  refine ⟨?_, ?_, ?_⟩
  · intro sop _ hown huniq
    have hnone : db.sops.find? (fun s => s.id == id && s.ownerId == uid) = none := by
      refine List.find?_eq_none.mpr ?_
      intro x hx
      simp only [Bool.and_eq_true, beq_iff_eq, not_and]
      intro hid
      rw [huniq x hx hid]
      exact hown
    exact ⟨by simp [getApiSopsId, hnone], by simp [deleteApiSopsId, hnone]⟩
  · intro tr _ hown huniq
    have hnone : db.trainings.find? (fun t => t.id == id && t.ownerId == uid) = none := by
      refine List.find?_eq_none.mpr ?_
      intro x hx
      simp only [Bool.and_eq_true, beq_iff_eq, not_and]
      intro hid
      rw [huniq x hx hid]
      exact hown
    exact ⟨by simp [getApiTrainingId, hnone], by simp [deleteApiTrainingId, hnone]⟩
  · intro emp _ hown huniq
    have hnone : db.employees.find? (fun e => e.id == id && e.ownerId == uid) = none := by
      refine List.find?_eq_none.mpr ?_
      intro x hx
      simp only [Bool.and_eq_true, beq_iff_eq, not_and]
      intro hid
      rw [huniq x hx hid]
      exact hown
    simp [deleteApiEmployeesId, hnone]

/-- C1 witness: tenant T2 requests the T1 records with id 1 (SOP, training,
employee); every guarded route answers 404 and the state is untouched. -/
theorem c1_witness :
    (getApiSopsId { dbEmpty with sops := [sopA] } "T2" 1 =
      { status := 404, sop := none, db := { dbEmpty with sops := [sopA] } } ∧
     deleteApiSopsId { dbEmpty with sops := [sopA] } "T2" 1 =
      { status := 404, db := { dbEmpty with sops := [sopA] } }) ∧
    (getApiTrainingId { dbEmpty with trainings := [trA] } "T2" 1 =
      { status := 404, training := none, db := { dbEmpty with trainings := [trA] } } ∧
     deleteApiTrainingId { dbEmpty with trainings := [trA] } "T2" 1 =
      { status := 404, db := { dbEmpty with trainings := [trA] } }) ∧
    deleteApiEmployeesId { dbEmpty with employees := [empA] } "T2" 1 =
      { status := 404, db := { dbEmpty with employees := [empA] } } :=
  ⟨(c1_ownership_isolation_amended { dbEmpty with sops := [sopA] } "T2" 1).1
      sopA (by decide) (by decide) (by decide),
   (c1_ownership_isolation_amended { dbEmpty with trainings := [trA] } "T2" 1).2.1
      trA (by decide) (by decide) (by decide),
   (c1_ownership_isolation_amended { dbEmpty with employees := [empA] } "T2" 1).2.2
      empA (by decide) (by decide) (by decide)⟩

/-- C4 — SOP completion is idempotent on both completion routes
(server.js:1898-1951 and server.js:2053-2131): when the progress record of
the caller and SOP already has completed true, the call returns that stored
record (hence the same certificateUrl), invokes the certificate generator
zero times, and leaves the database unchanged. -/
theorem c4_completion_idempotent (db : DB) (genCert : String → String → String)
    (now : Nat) (uid : String) (id : Nat) (emp : EmployeeRec) (sop : SOPRec) (p : ProgressRec)
    (hemp : db.employees.find? (fun e => e.firebaseUid == uid) = some emp)
    (hsop : db.sops.find? (fun s => s.id == id) = some sop)
    (hown : sop.ownerId = emp.ownerId)
    (hp : db.progresses.find? (fun q => q.employeeId == uid && q.sopId == id) = some p)
    (hc : p.completed = true) :
    postApiEmployeeSopsIdComplete db genCert now (Caller.employee emp) id =
      { status := 200, progress := some p, certCalls := 0, db := db } ∧
    postApiSopsIdComplete db genCert now uid id =
      { status := 200, progress := some p, certCalls := 0, db := db } := by
  have hequid : emp.firebaseUid = uid := by simpa using List.find?_some hemp
  subst hequid
  have hne : (sop.ownerId != emp.ownerId) = false := by
    simp [bne, hown]
  constructor
  · simp [postApiEmployeeSopsIdComplete, hsop, hp, hc]
  · simp [postApiSopsIdComplete, hemp, hsop, hne, hp, hc]

/-- C4 witness: employee e1 already completed SOP 1 with certificate cert1;
both completion routes return the stored progress as is, with no generator
call and no state change. -/
theorem c4_witness :
    postApiEmployeeSopsIdComplete
        { dbEmpty with employees := [empA], sops := [sopA], progresses := [prgA] }
        (fun _ _ => "other") 9 (Caller.employee empA) 1 =
      { status := 200, progress := some prgA, certCalls := 0
        db := { dbEmpty with employees := [empA], sops := [sopA], progresses := [prgA] } } ∧
    postApiSopsIdComplete
        { dbEmpty with employees := [empA], sops := [sopA], progresses := [prgA] }
        (fun _ _ => "other") 9 "e1" 1 =
      { status := 200, progress := some prgA, certCalls := 0
        db := { dbEmpty with employees := [empA], sops := [sopA], progresses := [prgA] } } :=
  c4_completion_idempotent
    { dbEmpty with employees := [empA], sops := [sopA], progresses := [prgA] }
    (fun _ _ => "other") 9 "e1" 1 empA sopA prgA
    (by decide) (by decide) (by decide) (by decide) (by decide)

/-- C5 — the live create routes stamp ownerId from the caller: for
POST /api/sops (first registration, server.js:1349-1373; the later duplicate
registration at 1775-1782 is shadowed by express first-match dispatch),
POST /api/employees (server.js:1728-1770) and POST /api/training
(server.js:1461-1491), whenever a record is returned it carries ownerId
equal to the caller firebaseUid — for every request body, in particular one
supplying its own ownerId — and the persisted record is the returned one. -/
theorem c5_create_stamps_owner (db : DB) (uid : String)
    (sb : CreateSopBody) (eb : CreateEmployeeBody) (tb : CreateTrainingBody)
    (resolveUid : String → String) (now nextId : Nat) :
    (∀ r, (postApiSops db uid sb now nextId).sop = some r →
      r.ownerId = uid ∧ (postApiSops db uid sb now nextId).db.sops = db.sops ++ [r]) ∧
    (∀ r, (postApiEmployees db uid eb resolveUid nextId).emp = some r →
      r.ownerId = uid ∧
      (postApiEmployees db uid eb resolveUid nextId).db.employees = db.employees ++ [r]) ∧
    (∀ r, (postApiTraining db uid tb now nextId).training = some r →
      r.ownerId = uid ∧
      (postApiTraining db uid tb now nextId).db.trainings = db.trainings ++ [r]) := by
  refine ⟨?_, ?_, ?_⟩
  · intro r h
    cases hv : (!(truthyStr sb.title) || !(truthyStr sb.dept) || !(truthyStr sb.content)) with
    | true => simp [postApiSops, hv] at h
    | false =>
      simp only [postApiSops, hv, Bool.false_eq_true, if_false, Option.some.injEq] at h
      subst h
      exact ⟨rfl, by simp [postApiSops, hv]⟩
  · intro r h
    cases hv : (!(truthyStr eb.name) || !(truthyStr eb.email) || !(truthyStr eb.dept)) with
    | true => simp [postApiEmployees, hv] at h
    | false =>
      simp only [postApiEmployees, hv, Bool.false_eq_true, if_false, Option.some.injEq] at h
      subst h
      exact ⟨rfl, by simp [postApiEmployees, hv]⟩
  · intro r h
    cases hv : (!(truthyStr tb.title) || !(truthyStr tb.videoUrl)) with
    | true => simp [postApiTraining, hv] at h
    | false =>
      simp only [postApiTraining, hv, Bool.false_eq_true, if_false, Option.some.injEq] at h
      subst h
      exact ⟨rfl, by simp [postApiTraining, hv]⟩

/-- C5 witness: tenant T1 creates a SOP, an Employee and a TrainingVideo
with bodies that each smuggle ownerId EVIL; every stored record carries
ownerId T1. -/
theorem c5_witness :
    ({ id := 7, ownerId := "T1", title := "Safety", dept := "ops", content := "c"
       updated := 3, assignedTo := [] : SOPRec }.ownerId = "T1" ∧
     (postApiSops dbEmpty "T1"
        { title := some "Safety", dept := some "ops", content := some "c"
          assignedTo := none, ownerId := some "EVIL" } 3 7).db.sops =
       dbEmpty.sops ++ [{ id := 7, ownerId := "T1", title := "Safety", dept := "ops"
                          content := "c", updated := 3, assignedTo := [] }]) ∧
    ({ id := 8, ownerId := "T1", firebaseUid := "fb1", name := "Eve", email := "eve@x"
       dept := "ops", role := "staff", status := "active", completedTrainings := []
       pendingSOPs := 0, completedBy := [] : EmployeeRec }.ownerId = "T1" ∧
     (postApiEmployees dbEmpty "T1"
        { name := some "Eve", email := some "eve@x", dept := some "ops"
          ownerId := some "EVIL" } (fun _ => "fb1") 8).db.employees =
       dbEmpty.employees ++
         [{ id := 8, ownerId := "T1", firebaseUid := "fb1", name := "Eve", email := "eve@x"
            dept := "ops", role := "staff", status := "active", completedTrainings := []
            pendingSOPs := 0, completedBy := [] }]) ∧
    ({ id := 9, ownerId := "T1", title := "Tr", description := "", videoUrl := "v"
       thumbnailUrl := "th", assignedEmployees := [], status := "active"
       completedBy := [], createdAt := 3 : TrainingRec }.ownerId = "T1" ∧
     (postApiTraining dbEmpty "T1"
        { title := some "Tr", description := none, videoUrl := some "v"
          thumbnailUrl := some "th", assignedEmployees := none
          ownerId := some "EVIL" } 3 9).db.trainings =
       dbEmpty.trainings ++
         [{ id := 9, ownerId := "T1", title := "Tr", description := "", videoUrl := "v"
            thumbnailUrl := "th", assignedEmployees := [], status := "active"
            completedBy := [], createdAt := 3 }]) :=
  ⟨(c5_create_stamps_owner dbEmpty "T1"
      { title := some "Safety", dept := some "ops", content := some "c"
        assignedTo := none, ownerId := some "EVIL" }
      { name := some "Eve", email := some "eve@x", dept := some "ops"
        ownerId := some "EVIL" }
      { title := some "Tr", description := none, videoUrl := some "v"
        thumbnailUrl := some "th", assignedEmployees := none, ownerId := some "EVIL" }
      (fun _ => "fb1") 3 7).1 _ (by decide),
   (c5_create_stamps_owner dbEmpty "T1"
      { title := some "Safety", dept := some "ops", content := some "c"
        assignedTo := none, ownerId := some "EVIL" }
      { name := some "Eve", email := some "eve@x", dept := some "ops"
        ownerId := some "EVIL" }
      { title := some "Tr", description := none, videoUrl := some "v"
        thumbnailUrl := some "th", assignedEmployees := none, ownerId := some "EVIL" }
      (fun _ => "fb1") 3 8).2.1 _ (by decide),
   (c5_create_stamps_owner dbEmpty "T1"
      { title := some "Safety", dept := some "ops", content := some "c"
        assignedTo := none, ownerId := some "EVIL" }
      { name := some "Eve", email := some "eve@x", dept := some "ops"
        ownerId := some "EVIL" }
      { title := some "Tr", description := none, videoUrl := some "v"
        thumbnailUrl := some "th", assignedEmployees := none, ownerId := some "EVIL" }
      (fun _ => "fb1") 3 9).2.2 _ (by decide)⟩

/-- C7 — the pendingSOPs aggregate of GET /api/stats (server.js:1804-1846)
cannot be tenant-scoped, because the countDocuments filter passes ownerId to
a collection whose schema (server.js:1020-1026) stores no such field: at a
state where tenant T1 owns two SOPs, its employee e1 has completed SOP 1,
and tenant T2 has a completed progress record of its own, the route reports
pendingSOPs 2 while the tenant-scoped value the specification describes is
1. (Under the strict-query-stripping mongoose alternative the filter would
instead count every tenant, giving 0 — also not 1.) -/
theorem c7_stats_pending_not_tenant_scoped :
    (getApiStats { dbEmpty with employees := [empA], sops := [sopA, sopB], progresses := [prgA, prgB] } "T1").completedSOPs = 0 ∧
    (getApiStats { dbEmpty with employees := [empA], sops := [sopA, sopB], progresses := [prgA, prgB] } "T1").pendingSOPs = 2 ∧
    specTenantPendingSOPs { dbEmpty with employees := [empA], sops := [sopA, sopB], progresses := [prgA, prgB] } "T1" = 1 ∧
    (getApiStats { dbEmpty with employees := [empA], sops := [sopA, sopB], progresses := [prgA, prgB] } "T1").pendingSOPs ≠
      specTenantPendingSOPs { dbEmpty with employees := [empA], sops := [sopA, sopB], progresses := [prgA, prgB] } "T1" := by
  decide

/-- C8 — the SOP update is a partial shallow merge: a body carrying only a
non-empty content on PUT /api/sops/:id of the third revision
(server.js:1380-1403) changes only content and the updated stamp and leaves
title, dept, assignedTo and ownerId unchanged; the same body on the
second-revision route (server.js:675-686) behaves identically. Fields absent
from the body are never written by either route. -/
theorem c8_partial_update (db : DB) (uid : String) (id : Nat) (sop : SOPRec)
    (c : String) (now : Nat)
    (hsop : db.sops.find? (fun s => s.id == id) = some sop)
    (hown : sop.ownerId = uid)
    (hc : c ≠ "") :
    (putApiSopsId db uid
        { title := none, dept := none, content := some c
          assignedTo := none, ownerId := none } now id).status = 200 ∧
    (putApiSopsId db uid
        { title := none, dept := none, content := some c
          assignedTo := none, ownerId := none } now id).sop =
      some { sop with content := c, updated := now } ∧
    (putApiSopsId db uid
        { title := none, dept := none, content := some c
          assignedTo := none, ownerId := none } now id).db.sops =
      updateFirst (fun s => s.id == id)
        (fun _ => { sop with content := c, updated := now }) db.sops ∧
    (putApiSopsIdRev2 db uid
        { title := none, dept := none, content := some c
          assignedTo := none, ownerId := none } now id).sop =
      some { sop with content := c, updated := now } := by
  have htr : truthyStr (some c) = true := by
    simpa [truthyStr] using hc
  refine ⟨?_, ?_, ?_, ?_⟩
  · simp [putApiSopsId, hsop, htr, truthyStr, hc]
  · simp [putApiSopsId, hsop, htr, truthyStr, hc]
  · simp [putApiSopsId, hsop, htr, truthyStr, hc]
  · simp [putApiSopsIdRev2, hsop, hown]

/-- C8 witness: updating the T1 SOP with the body containing only the
content new leaves title, dept, assignedTo and ownerId as in sopA. -/
theorem c8_witness :
    (putApiSopsId { dbEmpty with sops := [sopA] } "T1"
        { title := none, dept := none, content := some "new"
          assignedTo := none, ownerId := none } 4 1).sop =
      some { sopA with content := "new", updated := 4 } ∧
    (putApiSopsIdRev2 { dbEmpty with sops := [sopA] } "T1"
        { title := none, dept := none, content := some "new"
          assignedTo := none, ownerId := none } 4 1).sop =
      some { sopA with content := "new", updated := 4 } :=
  ⟨(c8_partial_update { dbEmpty with sops := [sopA] } "T1" 1 sopA "new" 4
      (by decide) (by decide) (by decide)).2.1,
   (c8_partial_update { dbEmpty with sops := [sopA] } "T1" 1 sopA "new" 4
      (by decide) (by decide) (by decide)).2.2.2⟩

/-- C10 — GET /api/admin/sops/completed-count (server.js:1889-1892) is
served to every authenticated caller with the same 200 response regardless
of who calls, and the total is the count of all completed
EmployeeSOPProgress documents with no tenant or employee restriction: over
any split of the collection into the records of one tenant and the rest, it
adds both parts. -/
theorem c10_completed_count_global (db : DB) (c c' : Caller)
    (ps1 ps2 : List ProgressRec) :
    getApiAdminSopsCompletedCount db c = getApiAdminSopsCompletedCount db c' ∧
    (getApiAdminSopsCompletedCount db c).1 = 200 ∧
    (getApiAdminSopsCompletedCount db c).2 =
      (db.progresses.filter (fun p => p.completed)).length ∧
    (getApiAdminSopsCompletedCount { db with progresses := ps1 ++ ps2 } c).2 =
      (getApiAdminSopsCompletedCount { db with progresses := ps1 } c).2 +
      (getApiAdminSopsCompletedCount { db with progresses := ps2 } c).2 := by
  refine ⟨rfl, rfl, rfl, ?_⟩
  simp [getApiAdminSopsCompletedCount, List.filter_append]

end TrainDesk
